import Mathlib

/-
Verification of the statistical analysis engine of the rigorous-benchmarking
scripts (scripts/rigorous_benchmark.py and scripts/rigorous_benchmark_demo.py).
Python floats are modelled as real numbers; a Python function that can raise an
exception is modelled as returning an Except value.
-/

/-- Statistical-layer error taxonomy: an operation was given fewer measurements
than it requires, or a required denominator (a mean) was zero. -/
inductive StatError where
  | insufficientData
  | divisionByZero
deriving DecidableEq

/-- Acquisition-layer error taxonomy: the benchmarked process exited with a
non-zero status, or a marker line in its output was malformed. -/
inductive RunError where
  | executionError
  | parseError
deriving DecidableEq

/-- Embedding of the dataclass BenchmarkResult shared by both scripts: a named
ordered sequence of timing measurements. -/
structure BenchmarkResult where
  name : String
  measurements : List ℝ

/-- Arithmetic mean of a list of reals, the value computed by statistics.mean
on a non-empty sequence. -/
noncomputable def listMean (l : List ℝ) : ℝ := l.sum / l.length

/-- Bessel-corrected sample variance with divisor n - 1, the value computed
inside statistics.stdev on a sequence of at least two points. -/
noncomputable def listVariance (l : List ℝ) : ℝ :=
  ((l.map fun x => (x - listMean l) ^ 2).sum) / ((l.length : ℝ) - 1)

/-- Sample standard deviation: square root of the Bessel-corrected variance. -/
noncomputable def listStdev (l : List ℝ) : ℝ := Real.sqrt (listVariance l)

/-- Embeds the mean property of BenchmarkResult: statistics.mean raises on an
empty sequence, modelled as insufficientData. -/
noncomputable def BenchmarkResult.mean (r : BenchmarkResult) : Except StatError ℝ :=
  if r.measurements.length < 1 then .error .insufficientData
  else .ok (listMean r.measurements)

/-- Embeds the stdev property of BenchmarkResult: statistics.stdev raises when
fewer than two data points are present, modelled as insufficientData. -/
noncomputable def BenchmarkResult.stdev (r : BenchmarkResult) : Except StatError ℝ :=
  if r.measurements.length < 2 then .error .insufficientData
  else .ok (listStdev r.measurements)

/-- Embeds the cv property of BenchmarkResult: 100 * stdev / mean when
mean > 0, else 0. Python evaluates the mean > 0 condition first, so stdev is
only consulted (and can only raise) when the mean is positive. -/
noncomputable def BenchmarkResult.cv (r : BenchmarkResult) : Except StatError ℝ :=
  match r.mean with
  | .error e => .error e
  | .ok m =>
    if 0 < m then
      match r.stdev with
      | .error e => .error e
      | .ok s => .ok (100 * s / m)
    else .ok 0

/-- Embeds confidence_interval of rigorous_benchmark.py. The Student quantile
scipy.stats.t.ppf is an external library collaborator, passed in as the
function tppf (arguments: cumulative probability, degrees of freedom). -/
noncomputable def confidence_interval (tppf : ℝ → ℕ → ℝ) (r : BenchmarkResult)
    (confidence : ℝ) : Except StatError (ℝ × ℝ) :=
  if r.measurements.length < 2 then
    match r.mean with
    | .error e => .error e
    | .ok m => .ok (m, m)
  else
    match r.stdev with
    | .error e => .error e
    | .ok s =>
      match r.mean with
      | .error e => .error e
      | .ok m =>
        let tv := tppf ((1 + confidence) / 2) (r.measurements.length - 1)
        let margin := tv * s / Real.sqrt r.measurements.length
        .ok (m - margin, m + margin)

/-- Embeds confidence_interval of rigorous_benchmark_demo.py, which uses the
fixed normal-approximation quantile z = 1.96 and ignores the requested level
beyond its default. -/
noncomputable def confidence_interval_demo (r : BenchmarkResult)
    (confidence : ℝ) : Except StatError (ℝ × ℝ) :=
  if r.measurements.length < 2 then
    match r.mean with
    | .error e => .error e
    | .ok m => .ok (m, m)
  else
    match r.stdev with
    | .error e => .error e
    | .ok s =>
      match r.mean with
      | .error e => .error e
      | .ok m =>
        let margin := 1.96 * s / Real.sqrt r.measurements.length
        .ok (m - margin, m + margin)

/-- Embeds remove_outliers: mean and stdev of the input are computed once, a
measurement t is kept iff abs (t - mean) is at most threshold * stdev, and a
new BenchmarkResult is built whose name carries the " (filtered)" suffix. The
5-percent warning print in the source is console output only and has no effect
on the returned value, so it is not part of the value-level model. -/
noncomputable def BenchmarkResult.remove_outliers (r : BenchmarkResult)
    (threshold : ℝ) : Except StatError BenchmarkResult :=
  match r.mean with
  | .error e => .error e
  | .ok m =>
    match r.stdev with
    | .error e => .error e
    | .ok s =>
      .ok ⟨r.name ++ " (filtered)",
           r.measurements.filter fun t => decide (|t - m| ≤ threshold * s)⟩

/-- Embeds compute_speedup (identical in both scripts): the ratio of the means
and its propagated absolute uncertainty. Python float division by zero raises
ZeroDivisionError, modelled by the explicit zero tests on each denominator, in
the evaluation order of the source. -/
noncomputable def compute_speedup (baseline optimized : BenchmarkResult) :
    Except StatError (ℝ × ℝ) :=
  match baseline.mean with
  | .error e => .error e
  | .ok mb =>
    match optimized.mean with
    | .error e => .error e
    | .ok mo =>
      if mo = 0 then .error .divisionByZero
      else
        let s := mb / mo
        match baseline.stdev with
        | .error e => .error e
        | .ok sb =>
          if mb * Real.sqrt baseline.measurements.length = 0 then
            .error .divisionByZero
          else
            let rb := sb / (mb * Real.sqrt baseline.measurements.length)
            match optimized.stdev with
            | .error e => .error e
            | .ok so =>
              if mo * Real.sqrt optimized.measurements.length = 0 then
                .error .divisionByZero
              else
                let ro := so / (mo * Real.sqrt optimized.measurements.length)
                .ok (s, s * Real.sqrt (rb ^ 2 + ro ^ 2))

/-- Embeds the first loop of validate_experiment (criterion 7.1): the running
all_valid flag is conjoined with cv < 10.0 for each result in order; a raise
while computing cv aborts the loop. -/
noncomputable def checkStability : List BenchmarkResult → Bool → Except StatError Bool
  | [], acc => .ok acc
  | r :: rs, acc =>
    match r.cv with
    | .error e => .error e
    | .ok c => checkStability rs (acc && decide (c < 10.0))

/-- Embeds the second loop of validate_experiment (criterion 7.2): the running
flag is conjoined with the relative 95-percent margin being below 1 percent; a
zero denominator sqrt(n) * mean raises ZeroDivisionError. -/
noncomputable def checkPrecision : List BenchmarkResult → Bool → Except StatError Bool
  | [], acc => .ok acc
  | r :: rs, acc =>
    match r.stdev with
    | .error e => .error e
    | .ok s =>
      match r.mean with
      | .error e => .error e
      | .ok m =>
        if Real.sqrt r.measurements.length * m = 0 then .error .divisionByZero
        else
          checkPrecision rs
            (acc && decide (100 * 1.96 * s / (Real.sqrt r.measurements.length * m) < 1.0))

/-- Embeds validate_experiment: both criteria loops run over all results, the
flag starts at true, and the aggregate boolean is returned. The per-result
console printing is output only and does not affect the returned value. -/
noncomputable def validate_experiment (results : List BenchmarkResult) :
    Except StatError Bool :=
  match checkStability results true with
  | .error e => .error e
  | .ok v1 => checkPrecision results v1

/-- Character class of Python str.split with no arguments: runs of whitespace
separate tokens. -/
def isPySpace (c : Char) : Bool :=
  c == ' ' || c == '\t' || c == '\n' || c == '\r' || c == '\u000B' || c == '\u000C'

/-- Helper for pySplit: walks the characters, accumulating the current token in
reverse. -/
def splitWsAux : List Char → List Char → List String
  | [], acc => if acc.isEmpty then [] else [String.mk acc.reverse]
  | c :: cs, acc =>
    if isPySpace c then
      if acc.isEmpty then splitWsAux cs []
      else String.mk acc.reverse :: splitWsAux cs []
    else splitWsAux cs (c :: acc)

/-- Embeds line.split() from run_benchmark: whitespace-separated tokens with
empty tokens discarded. -/
def pySplit (s : String) : List String := splitWsAux s.data []

/-- Bool-valued infix test on lists, the computational content of the Python
substring containment test. -/
def isInfixOfB (pat : List Char) : List Char → Bool
  | [] => pat.isEmpty
  | c :: cs => pat.isPrefixOf (c :: cs) || isInfixOfB pat cs

/-- Embeds the Python containment test (pat in line) on strings. -/
def strContains (line pat : String) : Bool := isInfixOfB pat.data line.data

/-- One timed invocation of the benchmarked binary: its exit status and its
captured standard output, already split into lines. -/
structure Invocation where
  exitCode : Nat
  stdout : List String

/-- Embeds the per-invocation parsing of run_benchmark: scan the lines for the
first one containing the marker, take its second whitespace token and parse it
with the external float parser pyFloat. Returns none when no line contains the
marker (the Python for-loop simply falls through without appending), and an
error when the marker line has no second token (IndexError in Python) or the
token does not parse (ValueError in Python). -/
def extractTime (pyFloat : String → Option ℝ) :
    List String → Except RunError (Option ℝ)
  | [] => .ok none
  | line :: rest =>
    if strContains line ("KeyGen:") then
      match (pySplit line)[1]? with
      | none => .error .parseError
      | some timeStr =>
        match pyFloat timeStr with
        | none => .error .parseError
        | some v => .ok (some v)
    else extractTime pyFloat rest

/-- Embeds the main measurement loop of run_benchmark: each invocation must
exit with status zero (check=True, else ExecutionError), its output is parsed,
a parsed value is appended to the measurement list, and an invocation whose
output has no marker line contributes nothing. -/
def runLoop (pyFloat : String → Option ℝ) :
    List Invocation → List ℝ → Except RunError (List ℝ)
  | [], acc => .ok acc
  | inv :: rest, acc =>
    if inv.exitCode ≠ 0 then .error .executionError
    else
      match extractTime pyFloat inv.stdout with
      | .error e => .error e
      | .ok none => runLoop pyFloat rest acc
      | .ok (some v) => runLoop pyFloat rest (acc ++ [v])

/-- Embeds run_benchmark: run the timed invocations in order and return the
accumulated measurement sequence. The warmup phase only launches the binary
with its output discarded and contributes no measurements, so it is not part of
the value-level model. -/
def run_benchmark (pyFloat : String → Option ℝ) (invs : List Invocation) :
    Except RunError (List ℝ) :=
  runLoop pyFloat invs []

/-- A sample with at least two measurements is non-empty. -/
lemma ne_nil_of_two_le {l : List ℝ} (h : 2 ≤ l.length) : l ≠ [] := by
  intro hl
  rw [hl] at h
  simp at h

/-- On a non-empty sample, the mean property succeeds with the arithmetic mean. -/
lemma mean_ok (r : BenchmarkResult) (h : r.measurements ≠ []) :
    r.mean = .ok (listMean r.measurements) := by
  have hlen : ¬ r.measurements.length < 1 := by
    simp [Nat.lt_one_iff, List.length_eq_zero]
    exact h
  simp [BenchmarkResult.mean, hlen]

/-- On a sample with at least two points, the stdev property succeeds with the
sample standard deviation. -/
lemma stdev_ok (r : BenchmarkResult) (h : 2 ≤ r.measurements.length) :
    r.stdev = .ok (listStdev r.measurements) := by
  simp [BenchmarkResult.stdev, Nat.not_lt.mpr h]

/-- On a sample with at least two points and positive mean, cv succeeds with
100 times the relative standard deviation. -/
lemma cv_ok_pos (r : BenchmarkResult) (h2 : 2 ≤ r.measurements.length)
    (hm : 0 < listMean r.measurements) :
    r.cv = .ok (100 * listStdev r.measurements / listMean r.measurements) := by
  have hne : r.measurements ≠ [] := ne_nil_of_two_le h2
  simp [BenchmarkResult.cv, mean_ok r hne, stdev_ok r h2, hm]

/-- Claim C6: for every Sample with fewer than 2 measurements, the stdev
operation fails with InsufficientDataError and does not return any value, in
particular not a degenerate zero. -/
theorem C6_stdev_fails_on_small_sample (r : BenchmarkResult)
    (h : r.measurements.length < 2) :
    r.stdev = .error StatError.insufficientData ∧ ∀ x, r.stdev ≠ .ok x := by
  have he : r.stdev = .error StatError.insufficientData := by
    simp [BenchmarkResult.stdev, h]
  refine ⟨he, fun x hx => ?_⟩
  rw [he] at hx
  exact Except.noConfusion hx

/-- Witness for C6 at the one-element sample. -/
theorem C6_stdev_fails_on_small_sample_witness :
    (⟨"x", [1]⟩ : BenchmarkResult).stdev = .error StatError.insufficientData ∧
      ∀ x, (⟨"x", [1]⟩ : BenchmarkResult).stdev ≠ .ok x :=
  C6_stdev_fails_on_small_sample ⟨"x", [1]⟩ (by simp)

/-- Claim C8: for every Sample with at least 2 measurements, cv returns
100 * stdev / mean when the mean is positive, and returns 0 without failing
when the mean is non-positive. -/
theorem C8_cv_policy (r : BenchmarkResult) (h2 : 2 ≤ r.measurements.length) :
    (0 < listMean r.measurements →
      r.cv = .ok (100 * listStdev r.measurements / listMean r.measurements)) ∧
    (listMean r.measurements ≤ 0 → r.cv = .ok 0) := by
  have hne : r.measurements ≠ [] := ne_nil_of_two_le h2
  refine ⟨fun hm => cv_ok_pos r h2 hm, fun hm => ?_⟩
  simp [BenchmarkResult.cv, mean_ok r hne, not_lt.mpr hm]

/-- Witness for C8 at a concrete three-point sample with positive mean. -/
theorem C8_cv_policy_witness :
    (⟨"x", [0, 2, 4]⟩ : BenchmarkResult).cv =
      .ok (100 * listStdev [0, 2, 4] / listMean [0, 2, 4]) :=
  (C8_cv_policy ⟨"x", [0, 2, 4]⟩ (by norm_num)).1 (by norm_num [listMean])

/-- Claim C7: for every Sample with exactly one measurement and every
confidence level, both confidence-interval implementations return the
zero-width interval from the mean to itself without failing. -/
theorem C7_ci_single_point (tppf : ℝ → ℕ → ℝ) (r : BenchmarkResult)
    (confidence : ℝ) (h1 : r.measurements.length = 1) :
    confidence_interval tppf r confidence =
        .ok (listMean r.measurements, listMean r.measurements) ∧
      confidence_interval_demo r confidence =
        .ok (listMean r.measurements, listMean r.measurements) := by
  have hne : r.measurements ≠ [] := by
    intro hl
    rw [hl] at h1
    simp at h1
  have hlt : r.measurements.length < 2 := by omega
  constructor
  · simp [confidence_interval, hlt, mean_ok r hne]
  · simp [confidence_interval_demo, hlt, mean_ok r hne]

/-- Witness for C7 at a one-point sample, an arbitrary quantile function and a
non-default confidence level. -/
theorem C7_ci_single_point_witness :
    confidence_interval (fun _ _ => 0) ⟨"x", [5]⟩ 0.99 =
        .ok (listMean [5], listMean [5]) ∧
      confidence_interval_demo ⟨"x", [5]⟩ 0.99 =
        .ok (listMean [5], listMean [5]) :=
  C7_ci_single_point (fun _ _ => 0) ⟨"x", [5]⟩ 0.99 (by simp)

/-- Claim C3: for every Sample with at least 2 measurements and every
non-negative threshold, the Outlier Filter returns exactly the subsequence of
measurements within threshold standard deviations of the input mean, with mean
and stdev computed once from the input, preserving order; the output count
never exceeds the input count. -/
theorem C3_outlier_filter_exact (r : BenchmarkResult) (threshold : ℝ)
    (h2 : 2 ≤ r.measurements.length) (hth : 0 ≤ threshold) :
    ∃ out, r.remove_outliers threshold = .ok out ∧
      out.measurements = r.measurements.filter
        (fun t => decide (|t - listMean r.measurements| ≤
          threshold * listStdev r.measurements)) ∧
      out.measurements.length ≤ r.measurements.length := by
  have hne : r.measurements ≠ [] := ne_nil_of_two_le h2
  refine ⟨⟨r.name ++ " (filtered)",
    r.measurements.filter fun t => decide (|t - listMean r.measurements| ≤
      threshold * listStdev r.measurements)⟩, ?_, rfl, List.length_filter_le _ _⟩
  simp [BenchmarkResult.remove_outliers, mean_ok r hne, stdev_ok r h2]

/-- Witness for C3 at a concrete three-point sample and threshold 3. -/
theorem C3_outlier_filter_exact_witness :
    ∃ out, (⟨"x", [0, 2, 4]⟩ : BenchmarkResult).remove_outliers 3 = .ok out ∧
      out.measurements = ([0, 2, 4] : List ℝ).filter
        (fun t => decide (|t - listMean [0, 2, 4]| ≤ 3 * listStdev [0, 2, 4])) ∧
      out.measurements.length ≤ ([0, 2, 4] : List ℝ).length :=
  C3_outlier_filter_exact ⟨"x", [0, 2, 4]⟩ 3 (by norm_num) (by norm_num)

/-- Claim C9: for every Sample with at least 2 measurements and every
threshold, the Outlier Filter returns a new Sample whose name is the input name
with the " (filtered)" suffix; in particular the output name differs from the
input name, so a fresh value is produced. The input itself cannot change: in
this pure embedding, as in the source (the dataclass is never mutated), the
filter only reads the input and builds a new value. -/
theorem C9_outlier_filter_fresh_name (r : BenchmarkResult) (threshold : ℝ)
    (h2 : 2 ≤ r.measurements.length) :
    ∃ out, r.remove_outliers threshold = .ok out ∧
      out.name = r.name ++ " (filtered)" ∧ out.name ≠ r.name := by
  have hne : r.measurements ≠ [] := ne_nil_of_two_le h2
  refine ⟨⟨r.name ++ " (filtered)",
    r.measurements.filter fun t => decide (|t - listMean r.measurements| ≤
      threshold * listStdev r.measurements)⟩, ?_, rfl, ?_⟩
  · simp [BenchmarkResult.remove_outliers, mean_ok r hne, stdev_ok r h2]
  · intro hname
    have hlen := congrArg String.length hname
    rw [String.length_append] at hlen
    have h11 : (" (filtered)").length = 11 := rfl
    omega

/-- Witness for C9 at a concrete two-point sample. -/
theorem C9_outlier_filter_fresh_name_witness :
    ∃ out, (⟨"cfg", [1, 1]⟩ : BenchmarkResult).remove_outliers 3 = .ok out ∧
      out.name = "cfg" ++ " (filtered)" ∧ out.name ≠ "cfg" :=
  C9_outlier_filter_fresh_name ⟨"cfg", [1, 1]⟩ 3 (by norm_num)

/-- Claim C5: the Speedup Estimator requires a positive optimized mean; on any
pair of Samples obeying the data-model invariants (non-empty, non-negative
measurements) whose optimized mean is non-positive, it fails with
DivisionByZeroError and produces no ratio result. -/
theorem C5_speedup_requires_positive_mean (baseline optimized : BenchmarkResult)
    (hb : baseline.measurements ≠ []) (ho : optimized.measurements ≠ [])
    (hnn : ∀ x ∈ optimized.measurements, 0 ≤ x)
    (hm : listMean optimized.measurements ≤ 0) :
    compute_speedup baseline optimized = .error StatError.divisionByZero ∧
      ∀ p, compute_speedup baseline optimized ≠ .ok p := by
  have hze : listMean optimized.measurements = 0 := by
    have hs : 0 ≤ optimized.measurements.sum := List.sum_nonneg hnn
    have hge : 0 ≤ listMean optimized.measurements := by
      unfold listMean
      positivity
    linarith
  have he : compute_speedup baseline optimized = .error StatError.divisionByZero := by
    simp [compute_speedup, mean_ok baseline hb, mean_ok optimized ho, hze]
  refine ⟨he, fun p hp => ?_⟩
  rw [he] at hp
  exact Except.noConfusion hp

/-- Witness for C5 at a baseline of one point and an all-zero optimized
sample. -/
theorem C5_speedup_requires_positive_mean_witness :
    compute_speedup ⟨"b", [1]⟩ ⟨"o", [0]⟩ = .error StatError.divisionByZero ∧
      ∀ p, compute_speedup ⟨"b", [1]⟩ ⟨"o", [0]⟩ ≠ .ok p :=
  C5_speedup_requires_positive_mean ⟨"b", [1]⟩ ⟨"o", [0]⟩ (by simp) (by simp)
    (by intro x hx; rw [List.mem_singleton] at hx; rw [hx])
    (by norm_num [listMean])

/-- Claim C1: for every pair of Samples with at least 2 measurements each and
positive means, the Speedup Estimator returns the ratio of the means together
with the quadrature-propagated absolute uncertainty built from the per-sample
relative standard errors stdev / (mean * sqrt n). -/
theorem C1_speedup_formula (baseline optimized : BenchmarkResult)
    (hb : 2 ≤ baseline.measurements.length)
    (ho : 2 ≤ optimized.measurements.length)
    (hmb : 0 < listMean baseline.measurements)
    (hmo : 0 < listMean optimized.measurements) :
    compute_speedup baseline optimized =
      .ok (listMean baseline.measurements / listMean optimized.measurements,
        listMean baseline.measurements / listMean optimized.measurements *
          Real.sqrt
            ((listStdev baseline.measurements /
                (listMean baseline.measurements *
                  Real.sqrt baseline.measurements.length)) ^ 2 +
             (listStdev optimized.measurements /
                (listMean optimized.measurements *
                  Real.sqrt optimized.measurements.length)) ^ 2)) := by
  have hbne : baseline.measurements ≠ [] := ne_nil_of_two_le hb
  have hone : optimized.measurements ≠ [] := ne_nil_of_two_le ho
  have hsb : (0 : ℝ) < Real.sqrt baseline.measurements.length := by
    apply Real.sqrt_pos.mpr
    exact_mod_cast Nat.lt_of_lt_of_le (by norm_num) hb
  have hso : (0 : ℝ) < Real.sqrt optimized.measurements.length := by
    apply Real.sqrt_pos.mpr
    exact_mod_cast Nat.lt_of_lt_of_le (by norm_num) ho
  have h1 : listMean baseline.measurements *
      Real.sqrt baseline.measurements.length ≠ 0 :=
    (mul_pos hmb hsb).ne'
  have h2 : listMean optimized.measurements *
      Real.sqrt optimized.measurements.length ≠ 0 :=
    (mul_pos hmo hso).ne'
  simp [compute_speedup, mean_ok baseline hbne, mean_ok optimized hone,
    stdev_ok baseline hb, stdev_ok optimized ho, hmo.ne', h1, h2]

/-- Witness for C1 at two constant two-point samples. -/
theorem C1_speedup_formula_witness :
    compute_speedup ⟨"baseline", [2, 2]⟩ ⟨"optimized", [1, 1]⟩ =
      .ok (listMean [2, 2] / listMean [1, 1],
        listMean [2, 2] / listMean [1, 1] *
          Real.sqrt
            ((listStdev [2, 2] /
                (listMean [2, 2] * Real.sqrt (([2, 2] : List ℝ).length))) ^ 2 +
             (listStdev [1, 1] /
                (listMean [1, 1] * Real.sqrt (([1, 1] : List ℝ).length))) ^ 2)) :=
  C1_speedup_formula ⟨"baseline", [2, 2]⟩ ⟨"optimized", [1, 1]⟩
    (by norm_num) (by norm_num) (by norm_num [listMean]) (by norm_num [listMean])

/-- Under the per-sample preconditions, the stability loop never raises and
computes the conjunction of all cv < 10 checks into the running flag. -/
lemma checkStability_ok (rs : List BenchmarkResult)
    (H : ∀ r ∈ rs, 2 ≤ r.measurements.length ∧ 0 < listMean r.measurements) :
    ∀ acc, checkStability rs acc =
      .ok (acc && rs.all fun r =>
        decide (100 * listStdev r.measurements / listMean r.measurements < 10.0)) := by
  induction rs with
  | nil => intro acc; simp [checkStability]
  | cons r rs ih =>
    intro acc
    have hr := H r (by simp)
    rw [checkStability]
    simp only [cv_ok_pos r hr.1 hr.2]
    rw [ih (fun z hz => H z (by simp [hz]))]
    simp [List.all_cons, Bool.and_assoc]

/-- Under the per-sample preconditions, the precision loop never raises and
computes the conjunction of all relative-margin checks into the running flag. -/
lemma checkPrecision_ok (rs : List BenchmarkResult)
    (H : ∀ r ∈ rs, 2 ≤ r.measurements.length ∧ 0 < listMean r.measurements) :
    ∀ acc, checkPrecision rs acc =
      .ok (acc && rs.all fun r =>
        decide (100 * 1.96 * listStdev r.measurements /
          (Real.sqrt r.measurements.length * listMean r.measurements) < 1.0)) := by
  induction rs with
  | nil => intro acc; simp [checkPrecision]
  | cons r rs ih =>
    intro acc
    have hr := H r (by simp)
    have hne : r.measurements ≠ [] := ne_nil_of_two_le hr.1
    have hsq : (0 : ℝ) < Real.sqrt r.measurements.length := by
      apply Real.sqrt_pos.mpr
      exact_mod_cast Nat.lt_of_lt_of_le (by norm_num) hr.1
    have hden : Real.sqrt r.measurements.length * listMean r.measurements ≠ 0 :=
      (mul_pos hsq hr.2).ne'
    rw [checkPrecision]
    simp only [stdev_ok r hr.1, mean_ok r hne]
    rw [if_neg hden, ih (fun z hz => H z (by simp [hz]))]
    simp [List.all_cons, Bool.and_assoc]

/-- Claim C2: for every collection of Samples, each with at least 2
measurements and a positive mean, the Validity Gate succeeds and returns true
exactly when every Sample passes both the stability criterion cv < 10 percent
and the precision criterion 100 * 1.96 * stdev / (sqrt n * mean) < 1 percent. -/
theorem C2_validity_gate (results : List BenchmarkResult)
    (H : ∀ r ∈ results, 2 ≤ r.measurements.length ∧ 0 < listMean r.measurements) :
    validate_experiment results = .ok true ↔
      ∀ r ∈ results,
        100 * listStdev r.measurements / listMean r.measurements < 10.0 ∧
        100 * 1.96 * listStdev r.measurements /
          (Real.sqrt r.measurements.length * listMean r.measurements) < 1.0 := by
  rw [validate_experiment]
  simp only [checkStability_ok results H true]
  rw [checkPrecision_ok results H]
  simp only [Except.ok.injEq, Bool.true_and, Bool.and_eq_true, List.all_eq_true,
    decide_eq_true_eq]
  constructor
  · rintro ⟨h1, h2⟩ r hr
    exact ⟨h1 r hr, h2 r hr⟩
  · intro h
    exact ⟨fun r hr => (h r hr).1, fun r hr => (h r hr).2⟩

/-- Witness for C2 at the singleton collection holding a constant two-point
sample. -/
theorem C2_validity_gate_witness :
    validate_experiment [⟨"a", [1, 1]⟩] = .ok true ↔
      ∀ r ∈ [(⟨"a", [1, 1]⟩ : BenchmarkResult)],
        100 * listStdev r.measurements / listMean r.measurements < 10.0 ∧
        100 * 1.96 * listStdev r.measurements /
          (Real.sqrt r.measurements.length * listMean r.measurements) < 1.0 :=
  C2_validity_gate [⟨"a", [1, 1]⟩] (by
    intro r hr
    rw [List.mem_singleton] at hr
    subst hr
    exact ⟨by norm_num, by norm_num [listMean]⟩)

/-- If every element of a non-empty list exceeds c strictly, the sum of the
mapped list strictly exceeds c times the length. -/
lemma mul_length_lt_sum (c : ℝ) (f : ℝ → ℝ) (l : List ℝ) (hne : l ≠ [])
    (h : ∀ x ∈ l, c < f x) : c * l.length < (l.map f).sum := by
  induction l with
  | nil => exact absurd rfl hne
  | cons x xs ih =>
    rcases eq_or_ne xs [] with hxs | hxs
    · subst hxs
      have hx := h x (by simp)
      simp only [List.map_cons, List.map_nil, List.sum_cons, List.sum_nil,
        List.length_cons, List.length_nil, Nat.cast_ofNat, Nat.cast_zero,
        Nat.zero_add, Nat.cast_one]
      linarith
    · have hx := h x (by simp)
      have hrec := ih hxs (fun z hz => h z (by simp [hz]))
      simp only [List.map_cons, List.sum_cons, List.length_cons]
      push_cast
      have hexp : c * ((xs.length : ℝ) + 1) = c * (xs.length : ℝ) + c := by ring
      rw [hexp]
      linarith

/-- In every sample of at least two points, some point has squared deviation at
most the Bessel-corrected variance: a minimal squared deviation is at most the
average squared deviation, which is at most sum / (n - 1). -/
lemma exists_within_variance (l : List ℝ) (h2 : 2 ≤ l.length) :
    ∃ t ∈ l, (t - listMean l) ^ 2 ≤ listVariance l := by
  by_contra hcon
  push_neg at hcon
  have hne : l ≠ [] := ne_nil_of_two_le h2
  have hlt := mul_length_lt_sum (listVariance l)
    (fun x => (x - listMean l) ^ 2) l hne hcon
  have hS : 0 ≤ (l.map fun x => (x - listMean l) ^ 2).sum := by
    apply List.sum_nonneg
    intro y hy
    obtain ⟨x, _, rfl⟩ := List.mem_map.mp hy
    positivity
  set S := (l.map fun x => (x - listMean l) ^ 2).sum with hSdef
  have hd : (0 : ℝ) < (l.length : ℝ) - 1 := by
    have hcast : (2 : ℝ) ≤ (l.length : ℝ) := by exact_mod_cast h2
    linarith
  have hvar : listVariance l = S / ((l.length : ℝ) - 1) := rfl
  rw [hvar] at hlt
  rw [div_mul_eq_mul_div, div_lt_iff hd] at hlt
  have hring : S * (l.length : ℝ) - S * ((l.length : ℝ) - 1) = S := by ring
  nlinarith

/-- Claim C10: for every Sample with at least 2 measurements and every
threshold at least 1, the Outlier Filter keeps at least one measurement. -/
theorem C10_filter_keeps_a_point (r : BenchmarkResult) (threshold : ℝ)
    (h2 : 2 ≤ r.measurements.length) (hth : 1 ≤ threshold) :
    ∃ out, r.remove_outliers threshold = .ok out ∧ out.measurements ≠ [] := by
  have hne : r.measurements ≠ [] := ne_nil_of_two_le h2
  obtain ⟨t, htl, hts⟩ := exists_within_variance r.measurements h2
  have habs : |t - listMean r.measurements| ≤ listStdev r.measurements := by
    have hmono := Real.sqrt_le_sqrt hts
    rwa [Real.sqrt_sq_eq_abs] at hmono
  have hs0 : 0 ≤ listStdev r.measurements := Real.sqrt_nonneg _
  have hpass : |t - listMean r.measurements| ≤
      threshold * listStdev r.measurements := by
    have hup : listStdev r.measurements ≤ threshold * listStdev r.measurements := by
      nlinarith
    linarith
  refine ⟨⟨r.name ++ " (filtered)",
    r.measurements.filter fun x => decide (|x - listMean r.measurements| ≤
      threshold * listStdev r.measurements)⟩, ?_, ?_⟩
  · simp [BenchmarkResult.remove_outliers, mean_ok r hne, stdev_ok r h2]
  · intro hnil
    have hmem : t ∈ r.measurements.filter
        fun x => decide (|x - listMean r.measurements| ≤
          threshold * listStdev r.measurements) :=
      List.mem_filter.mpr ⟨htl, by simpa using hpass⟩
    have hfil : r.measurements.filter
        (fun x => decide (|x - listMean r.measurements| ≤
          threshold * listStdev r.measurements)) = [] := hnil
    rw [hfil] at hmem
    simp at hmem

/-- Witness for C10 at a constant two-point sample and threshold 1. -/
theorem C10_filter_keeps_a_point_witness :
    ∃ out, (⟨"w", [1, 1]⟩ : BenchmarkResult).remove_outliers 1 = .ok out ∧
      out.measurements ≠ [] :=
  C10_filter_keeps_a_point ⟨"w", [1, 1]⟩ 1 (by norm_num) le_rfl

/-- A concrete float parser that accepts nothing, standing in for the external
float() builtin in concrete counterexamples. -/
def pfNone : String → Option ℝ := fun _ => none

/-- Counterexample to claim C4: an invocation that exits cleanly but whose
captured output contains no marker line does not abort the run with a
ParseError; the run succeeds and simply returns no measurement for it. -/
theorem C4_counterexample_missing_marker_is_silent :
    run_benchmark pfNone [⟨0, ["no marker here"]⟩] = Except.ok ([] : List ℝ) ∧
      ∀ e, run_benchmark pfNone [⟨0, ["no marker here"]⟩] ≠ Except.error e :=
  ⟨rfl, fun _ h => Except.noConfusion h⟩

/-- If no line of the remaining output contains the marker, the parsing loop
falls through and yields no measurement, without error. -/
lemma extractTime_skip (pyFloat : String → Option ℝ) (lines : List String)
    (h : ∀ line ∈ lines, strContains line ("KeyGen:") = false) :
    extractTime pyFloat lines = .ok none := by
  induction lines with
  | nil => rfl
  | cons line rest ih =>
    rw [extractTime]
    simp [h line (by simp), ih (fun z hz => h z (by simp [hz]))]

/-- If the first marker line of the output has no second token or its second
token does not parse, the parsing loop aborts with a parse error. -/
lemma extractTime_badParse (pyFloat : String → Option ℝ) (pre : List String)
    (line : String) (post : List String)
    (hpre : ∀ z ∈ pre, strContains z ("KeyGen:") = false)
    (hline : strContains line ("KeyGen:") = true)
    (hparse : ∀ tok, (pySplit line)[1]? = some tok → pyFloat tok = none) :
    extractTime pyFloat (pre ++ line :: post) = .error RunError.parseError := by
  induction pre with
  | nil =>
    rw [List.nil_append, extractTime]
    simp only [hline, if_true]
    cases hsplit : (pySplit line)[1]? with
    | none => simp
    | some tok => simp [hparse tok hsplit]
  | cons p ps ih =>
    rw [List.cons_append, extractTime]
    simp only [hpre p (by simp), Bool.false_eq_true, if_false]
    exact ih (fun z hz => hpre z (by simp [hz]))

/-- Claim C4 as amended: with a cleanly exiting invocation, (a) if no line of
its output contains the marker, the invocation is silently skipped and the run
continues as if it were absent, possibly returning a partial measurement
sequence; (b) only if a marker line is present but its second token is missing
or unparseable does the run abort immediately with a parse error. -/
theorem C4_amended_marker_policy (pyFloat : String → Option ℝ)
    (inv : Invocation) (rest : List Invocation) (hexit : inv.exitCode = 0) :
    ((∀ line ∈ inv.stdout, strContains line ("KeyGen:") = false) →
      run_benchmark pyFloat (inv :: rest) = run_benchmark pyFloat rest) ∧
    (∀ pre line post, inv.stdout = pre ++ line :: post →
      (∀ z ∈ pre, strContains z ("KeyGen:") = false) →
      strContains line ("KeyGen:") = true →
      (∀ tok, (pySplit line)[1]? = some tok → pyFloat tok = none) →
      run_benchmark pyFloat (inv :: rest) = .error RunError.parseError) := by
  constructor
  · intro h
    rw [run_benchmark, runLoop]
    simp [hexit, extractTime_skip pyFloat inv.stdout h]
    rfl
  · intro pre line post hdecomp hpre hline hparse
    rw [run_benchmark, runLoop]
    simp [hexit, hdecomp,
      extractTime_badParse pyFloat pre line post hpre hline hparse]

/-- Witness for the amended C4 at a concrete invocation whose marker line has
an unparseable second token. -/
theorem C4_amended_marker_policy_witness :
    run_benchmark pfNone [⟨0, ["KeyGen: 12"]⟩] = .error RunError.parseError :=
  (C4_amended_marker_policy pfNone ⟨0, ["KeyGen: 12"]⟩ [] rfl).2
    [] ("KeyGen: 12") [] rfl (by simp) (by decide) (fun _ _ => rfl)
